import Mathlib

/-!
Shallow embedding of `src/paternoster/paternoster.py` (the Paternoster CLI
framework).  Python values are modelled by `PyVal` with Python truthiness;
parameter dictionaries by the `Param` structure (holding exactly the keys the
source reads); the argparse surface by an executable token parser covering the
subset of argparse the source relies on (long/short flags, positionals,
`store`, `store_true`, `store_false`, `count` actions, per-value type
conversion, required checking).  Process exits and prints are made explicit in
return values.  Display-only strings (prompt texts shown to the user) are not
modelled; the values read, validated and handed on are.
-/

set_option autoImplicit false

namespace Paternoster

/-- A Python value as used by the framework: `None`, booleans, ints, strings. -/
inductive PyVal where
  | vnone
  | vbool (b : Bool)
  | vint (n : Int)
  | vstr (s : String)
deriving DecidableEq, Repr

/-- Python truthiness for `PyVal`. -/
def PyVal.truthy : PyVal → Bool
  | .vnone => false
  | .vbool b => b
  | .vint n => n != 0
  | .vstr s => s != ""

/-- Characters stripped by Python `str.strip()`. -/
def is_py_space (c : Char) : Bool :=
  c = ' ' || c = '\t' || c = '\n' || c = '\r' || c = '\x0b' || c = '\x0c'

/-- Python `str.strip()`. -/
def py_strip (s : String) : String :=
  ⟨((s.data.dropWhile is_py_space).reverse.dropWhile is_py_space).reverse⟩

/-- Decimal digit value of a character, if any. -/
def digit_val (c : Char) : Option Nat :=
  if ('0' ≤ c && c ≤ '9') then some (c.toNat - '0'.toNat) else none

/-- Parse a list of decimal digits into a natural number. -/
def parse_nat_digits : List Char → Option Nat
  | [] => none
  | cs => cs.foldl (fun acc c =>
      match acc, digit_val c with
      | some n, some d => some (n * 10 + d)
      | _, _ => none) (some 0)

/-- Python `int(text)` on decimal strings: the conversion used for the
built-in `int` type descriptor; raises (here: `none`) on non-numeric input. -/
def py_int_parse (s : String) : Option Int :=
  match s.data with
  | '-' :: rest => (parse_nat_digits rest).map (fun n => -(n : Int))
  | l => (parse_nat_digits l).map (fun n => (n : Int))

/-- Substring test over the character lists of two strings. -/
def str_contains (hay needle : String) : Bool :=
  (List.range (hay.data.length + 1)).any
    (fun i => needle.data.isPrefixOf (hay.data.drop i))

/-- `s.startswith(pre)` over character lists. -/
def str_starts_with (s pre : String) : Bool :=
  pre.data.isPrefixOf s.data

/-- The result of resolving a `type` entry: what `argparse` receives as the
`type=` callable.  `isClass` and `isStrSubclass` model the
`inspect.isclass(type) and issubclass(type, six.string_types)` introspection
of `_check_type`; `parse` is the conversion `raw text -> value`, `none`
meaning the callable raised on that input. -/
structure ResolvedType where
  isClass : Bool
  isStrSubclass : Bool
  parse : String → Option PyVal

/-- The built-in `str`/unicode class: a class, a subclass of the string types,
identity conversion. -/
def strType : ResolvedType :=
  { isClass := true, isStrSubclass := true, parse := fun s => some (.vstr s) }

/-- The built-in `int` class: a class, not a string subclass, decimal
conversion. -/
def intType : ResolvedType :=
  { isClass := true, isStrSubclass := false,
    parse := fun s => (py_int_parse s).map PyVal.vint }

/-- Modelled from the spec: `paternoster/types.py` is not among the sources;
per section 4.1 a namespaced descriptor resolves to a registered
restricted-type constructor invoked with the declared construction
parameters, yielding a callable validator/converter *instance* (hence not a
class for the `inspect.isclass` test).  The concrete validation behaviour of
the restricted types is irrelevant to the claims; a representative identity
validator is used. -/
def paternoster_types_type (nm : String) (ps : List (String × PyVal)) : ResolvedType :=
  { isClass := false, isStrSubclass := false,
    parse := fun raw => some (.vstr raw) }

/-- A declared `type` entry before resolution: either a string descriptor or
an already-resolved callable/class (`_convert_type` passes the latter
through). -/
inductive TypeDesc where
  | name (s : String)
  | resolved (t : ResolvedType)

/-- The no-value (non-value-consuming) action whitelist of `_check_type`. -/
def action_whitelist : List String :=
  ["store_true", "store_false", "store_const", "append_const", "count"]

/-- `_check_type`, line 45: `argParams` is inspected after `_convert_type`
has run, so its `type` entry (if any) is the resolved callable.  Error
messages are the fixed strings raised by the source. -/
def check_msg_no_type : String :=
  "a type must be specified for each user-supplied argument"

/-- The policy-violation message of `_check_type` for raw string types. -/
def check_msg_str : String :=
  "restricted_str instead of str or unicode must be used for all string arguments"

/-- `_check_type(argParams)`: raise `ValueError` when a value-consuming
action has no type, or when the (possibly defaulted-to-`str`) type is a class
subclassing the string types. -/
def check_type (type? : Option ResolvedType) (action? : Option String) :
    Except String Unit :=
  let action := action?.getD "store"
  if type?.isNone && !(action_whitelist.contains action) then
    .error check_msg_no_type
  else
    let t := type?.getD strType
    if (t.isClass && t.isStrSubclass) && !(action_whitelist.contains action) then
      .error check_msg_str
    else
      .ok ()

/-- `_convert_type(argParams)`: pop `type`/`type_params`; map `"int"`/`"str"`
to the built-in classes, `paternoster.types.*` descriptors to a constructed
restricted-type instance, pass resolved callables through, and raise
`Exception` on an unknown string descriptor. -/
def convert_type (type? : Option TypeDesc) (type_params : List (String × PyVal)) :
    Except String (Option ResolvedType) :=
  match type? with
  | some (.name s) =>
      if s = "int" then .ok (some intType)
      else if s = "str" then .ok (some strType)
      else if str_starts_with s "paternoster.types." then
        .ok (some (paternoster_types_type s type_params))
      else .error ("unknown type " ++ s)
  | some (.resolved t) => .ok (some t)
  | none => .ok none

/-- The recognized `prompt_options` entries (`get_input`, line 266-270);
each is read with `.get` and used for its truthiness. -/
structure PromptOptions where
  accept_empty : Bool := false
  confirm : Option PyVal := none
  confirm_error : Option String := none
  no_echo : Bool := false
  strip : Bool := false

/-- One parameter dictionary: exactly the keys the source reads.  Keys a
dictionary may omit are `Option`s (`none` = key absent). -/
structure Param where
  name : String
  short : Option String := none
  positional : Bool := false
  required : Bool := false
  type? : Option TypeDesc := none
  type_params : List (String × PyVal) := []
  action : Option String := none
  default : Option PyVal := none
  prompt : Option PyVal := none
  prompt_options : PromptOptions := {}
  depends_on : Option String := none

/-- Truthiness of `param.get('prompt')`. -/
def prompt_truthy (p : Param) : Bool :=
  match p.prompt with
  | some v => v.truthy
  | none => false

/-- `isinstance(param.get('prompt'), (bool, six.string_types))`. -/
def prompt_is_bool_or_str (p : Param) : Bool :=
  match p.prompt with
  | some (.vbool _) => true
  | some (.vstr _) => true
  | _ => false

/-- Errors terminating `_build_argparser`: an uncaught `Exception` from
`_convert_type`, an uncaught `ValueError` from `_check_type`, an uncaught
`KeyError` from `param['short']`, or `parser.error` (which prints to stderr
and exits with status 2). -/
inductive BuildErr where
  | typeExc (msg : String)
  | valueError (msg : String)
  | keyError (msg : String)
  | usageError (msg : String)
deriving DecidableEq, Repr

/-- The exit status of `argparse`'s `parser.error` reporting path. -/
def parser_error_exit : Nat := 2

/-- The message of `_build_argparser`'s required-plus-prompt `parser.error`
(line 108-112; quote characters of the original text are not modelled). -/
def required_prompt_msg (name : String) : String :=
  "--" ++ name ++ " is required and cannot be combined with prompt"

/-- The per-parameter body of the `_build_argparser` loop (line 89-115): copy
the dict, pop the framework keys, resolve and police the type, compute the
flag strings, and reject a required parameter carrying a prompt via
`parser.error`; returns whether the argument joins the required group,
together with its flag strings. -/
def build_step (p : Param) : Except BuildErr (Bool × List String) := do
  let rt ← (convert_type p.type? p.type_params).mapError BuildErr.typeExc
  let _ ← (check_type rt p.action).mapError BuildErr.valueError
  let flags ←
    if p.positional then pure [p.name]
    else
      match p.short with
      | some s => pure ["-" ++ s, "--" ++ p.name]
      | none => Except.error (BuildErr.keyError "short")
  if p.required || p.positional then
    if prompt_truthy p then
      Except.error (BuildErr.usageError (required_prompt_msg p.name))
    else
      pure (true, flags)
  else
    pure (false, flags)

/-- Fold `build_step` over the declared parameters, splitting them into the
required and optional display groups. -/
def build_params : List Param → Except BuildErr (List (List String) × List (List String))
  | [] => .ok ([], [])
  | p :: rest => do
    let (isReq, flags) ← build_step p
    let (reqs, opts) ← build_params rest
    pure (if isReq then (flags :: reqs, opts) else (reqs, flags :: opts))

/-- The built surface: the flag lists of the required group and of the
optional group (help first, the verbose flag appended last). -/
structure Surface where
  required_args : List (List String)
  optional_args : List (List String)
deriving DecidableEq, Repr

/-- `_build_argparser` (line 76-122). -/
def build_argparser (params : List Param) : Except BuildErr Surface := do
  let (reqs, opts) ← build_params params
  pure { required_args := reqs,
         optional_args := [["-h", "--help"]] ++ opts ++ [["-v", "--verbose"]] }

/-! ## The argparse surface at parse time

The source hands the declared parameters to `argparse`; the model below
executes the subset of argparse semantics the framework relies on: long
(`--name`) and short (`-s`) flags, positionals filled in declaration order,
the `store`, `store_true`, `store_false` and `count` actions, per-value type
conversion, last-occurrence-wins stores, defaults (`None`; `False`/`True`
for the boolean actions; explicit defaults such as `verbose = 0`), and the
end-of-parse required check.  A parse failure is `argparse`'s usage-error
path (message to stderr, exit status `parser_error_exit`).  Not modelled:
`--name=value` syntax, flag abbreviation, `--` separators, negative-number
heuristics, and the help action. -/

/-- The synthetic verbose flag appended by `_build_argparser` (line 117). -/
def verboseParam : Param :=
  { name := "verbose", short := some "v", action := some "count",
    default := some (.vint 0) }

/-- The declared parameters plus the synthetic verbose flag, in the order the
arguments are added to the parser. -/
def all_params (params : List Param) : List Param := params ++ [verboseParam]

/-- The parsed-arguments namespace: an insertion-ordered mapping from
parameter name to value. -/
abbrev Namespace := List (String × PyVal)

/-- Lookup in a namespace. -/
def nsGet (ns : Namespace) (k : String) : Option PyVal :=
  (ns.find? (fun kv => kv.1 == k)).map (·.2)

/-- `getattr(args, k, d)`. -/
def nsGetD (ns : Namespace) (k : String) (d : PyVal) : PyVal :=
  (nsGet ns k).getD d

/-- Set a key, keeping its position (appending when absent). -/
def nsSet : Namespace → String → PyVal → Namespace
  | [], k, v => [(k, v)]
  | kv :: rest, k, v =>
      if kv.1 = k then (k, v) :: rest else kv :: nsSet rest k v

/-- The pre-parse value of an argument: its explicit default, else the
default of its action (`False`/`True` for the boolean actions, `None`
otherwise). -/
def initial_value (p : Param) : PyVal :=
  match p.default with
  | some v => v
  | none =>
    match p.action.getD "store" with
    | "store_true" => .vbool false
    | "store_false" => .vbool true
    | _ => .vnone

/-- The namespace before any token is consumed: every argument at its
default, in declaration order, verbose last. -/
def initial_ns (params : List Param) : Namespace :=
  (all_params params).map (fun p => (p.name, initial_value p))

/-- A token introducing an option (starts with a dash and is not the bare
`-`). -/
def is_flag_token (t : String) : Bool :=
  match t.data with
  | '-' :: _ :: _ => true
  | _ => false

/-- Whether a token is one of the flag strings of a (non-positional)
parameter. -/
def is_flag_of (p : Param) (t : String) : Bool :=
  t = "--" ++ p.name ||
    (match p.short with
     | some s => t = "-" ++ s
     | none => false)

/-- Resolve a flag token against the registered arguments. -/
def flag_param (params : List Param) (tok : String) : Option Param :=
  (all_params params).find? (fun p => !p.positional && is_flag_of p tok)

/-- The type callable `argparse` applies to a supplied value of `p` (identity
on the raw string when no type was declared). -/
def resolved_type (p : Param) : Option ResolvedType :=
  match convert_type p.type? p.type_params with
  | .ok t? => t?
  | .error _ => none

/-- Apply the (resolved) type of `p` to a raw command-line value. -/
def apply_type (p : Param) (raw : String) : Option PyVal :=
  match resolved_type p with
  | some t => t.parse raw
  | none => some (.vstr raw)

/-- Parser state: the namespace, the positionals not yet filled, the
arguments already seen, and an option waiting for its value token. -/
structure ParseSt where
  ns : Namespace
  pos : List Param
  seen : List String
  pending : Option Param

/-- Consume one token. -/
def parse_step (params : List Param) (st : ParseSt) (tok : String) :
    Except String ParseSt :=
  match st.pending with
  | some q =>
      if is_flag_token tok then
        .error ("argument --" ++ q.name ++ ": expected one argument")
      else
        match apply_type q tok with
        | some val =>
            .ok { st with ns := nsSet st.ns q.name val,
                          seen := q.name :: st.seen, pending := none }
        | none => .error ("argument --" ++ q.name ++ ": invalid value: " ++ tok)
  | none =>
      if is_flag_token tok then
        match flag_param params tok with
        | none => .error ("unrecognized arguments: " ++ tok)
        | some p =>
            if p.action.getD "store" = "store_true" then
              .ok { st with ns := nsSet st.ns p.name (.vbool true),
                            seen := p.name :: st.seen }
            else if p.action.getD "store" = "store_false" then
              .ok { st with ns := nsSet st.ns p.name (.vbool false),
                            seen := p.name :: st.seen }
            else if p.action.getD "store" = "count" then
              .ok { st with
                    ns := nsSet st.ns p.name
                      (match nsGet st.ns p.name with
                       | some (.vint n) => .vint (n + 1)
                       | _ => .vint 1),
                    seen := p.name :: st.seen }
            else if p.action.getD "store" = "store" then
              .ok { st with pending := some p }
            else
              .error ("action not modelled: " ++ p.action.getD "store")
      else
        match st.pos with
        | [] => .error ("unrecognized arguments: " ++ tok)
        | q :: qs =>
            match apply_type q tok with
            | some val =>
                .ok { st with ns := nsSet st.ns q.name val, pos := qs,
                              seen := q.name :: st.seen }
            | none => .error ("argument " ++ q.name ++ ": invalid value: " ++ tok)

/-- Consume all tokens. -/
def parse_loop (params : List Param) : ParseSt → List String → Except String ParseSt
  | st, [] => .ok st
  | st, tok :: rest =>
      match parse_step params st tok with
      | .ok st2 => parse_loop params st2 rest
      | .error e => .error e

/-- End-of-parse checks: no option waiting for a value, all positionals
filled, all `required=True` arguments seen. -/
def parse_finish (params : List Param) (st : ParseSt) : Except String Namespace :=
  match st.pending with
  | some q => .error ("argument --" ++ q.name ++ ": expected one argument")
  | none =>
      if st.pos.isEmpty &&
         (all_params params).all
           (fun p => !(p.required || p.positional) || st.seen.contains p.name) then
        .ok st.ns
      else
        .error "the following arguments are required"

/-- `parser.parse_args(argv)` over the declared parameters. -/
def parse_args_tokens (params : List Param) (argv : List String) :
    Except String Namespace :=
  match parse_loop params
      { ns := initial_ns params, pos := params.filter (·.positional),
        seen := [], pending := none } argv with
  | .ok st => parse_finish params st
  | .error e => .error e

/-! ## Interactive prompting (`prompt`, `get_input`, `_prompt_for_missing`) -/

/-- One attempt to read a line: the user types text or hits the interrupt
key. -/
inductive InputEvent where
  | text (s : String)
  | interrupt
deriving DecidableEq, Repr

/-- How a prompting step can fail: a `ValueError` (caught by `parse_args`,
which prints it and exits 3), a direct process exit (`sys.exit`), or the
model's marker for an exhausted input stream (the real program would block
reading further input). -/
inductive InputErr where
  | valueError (msg : String)
  | procExit (code : Nat)
  | exhausted
deriving DecidableEq, Repr

/-- `Paternoster.prompt(text, no_echo)` (line 221-241): read one line, with
or without echo; a `KeyboardInterrupt` during either read exits the process
with status 3. -/
def prompt_read (no_echo : Bool) (ev : InputEvent) : Except InputErr String :=
  match ev with
  | .text s => .ok s
  | .interrupt => .error (.procExit 3)

/-- The `while True` read loop of `get_input` (line 285-290): read, strip if
configured, accept a non-empty value or any value under `accept_empty`. -/
def read_loop (strip accept_empty no_echo : Bool) :
    List InputEvent → Except InputErr (String × List InputEvent)
  | [] => .error .exhausted
  | ev :: rest =>
      match prompt_read no_echo ev with
      | .error e => .error e
      | .ok raw =>
          let value := if strip then py_strip raw else raw
          if value != "" || accept_empty then .ok (value, rest)
          else read_loop strip accept_empty no_echo rest

/-- The default confirmation-mismatch message of `get_input` (line 298;
uppercase text as in the source). -/
def default_confirm_error : String :=
  "ERROR: input does not match its confirmation"

/-- `ask_confirmation` (line 277-280): the `confirm` option is truthy and a
bool or string. -/
def ask_confirmation (o : PromptOptions) : Bool :=
  (match o.confirm with
   | some v => v.truthy
   | none => false) &&
  (match o.confirm with
   | some (.vbool _) => true
   | some (.vstr _) => true
   | _ => false)

/-- `options.get('confirm_error') or default` (line 296-299). -/
def effective_confirm_error (o : PromptOptions) : String :=
  match o.confirm_error with
  | some s => if s != "" then s else default_confirm_error
  | none => default_confirm_error

/-- `Paternoster.get_input(param)` (line 243-302), returning the collected
value together with the unconsumed input stream. -/
def get_input (p : Param) (evs : List InputEvent) :
    Except InputErr (String × List InputEvent) :=
  let o := p.prompt_options
  match read_loop o.strip o.accept_empty o.no_echo evs with
  | .error e => .error e
  | .ok (value, evs1) =>
      if ask_confirmation o then
        match evs1 with
        | [] => .error .exhausted
        | ev :: rest =>
            match prompt_read o.no_echo ev with
            | .error e => .error e
            | .ok confirmed =>
                if value != confirmed then
                  .error (.valueError (effective_confirm_error o))
                else .ok (value, rest)
      else .ok (value, evs1)

/-- The generator of `_prompt_for_missing` (line 134-139): parameters with a
truthy bool-or-string `prompt` whose parsed value is `None`. -/
def missing_promptable (params : List Param) (args : Namespace) : List Param :=
  params.filter (fun p =>
    prompt_truthy p && prompt_is_bool_or_str p &&
    (match nsGet args p.name with
     | some .vnone => true
     | _ => false))

/-- The `prompt_data` dict comprehension (line 142-144): collect one input
per missing parameter, in declaration order, threading the input stream. -/
def collect_inputs (ps : List Param) (evs : List InputEvent) :
    Except InputErr (List (String × String) × List InputEvent) :=
  match ps with
  | [] => .ok ([], evs)
  | p :: rest =>
      match get_input p evs with
      | .error e => .error e
      | .ok (v, evs1) =>
          match collect_inputs rest evs1 with
          | .error e => .error e
          | .ok (others, evs2) => .ok ((p.name, v) :: others, evs2)

/-- `_prompt_for_missing(argv, parser, args)` (line 124-156): if anything was
collected, append synthetic `--name value` pairs to the invocation arguments
and re-run the parser; otherwise return `args` unchanged.  (`argv` is the
effective invocation argument list; the source falls back to `sys.argv[1:]`,
which is that same list.)  The inner `Except String` is the reparse's
usage-error path. -/
def prompt_for_missing (params : List Param) (argv : List String)
    (evs : List InputEvent) (args : Namespace) :
    Except InputErr (Except String Namespace) :=
  match collect_inputs (missing_promptable params args) evs with
  | .error e => .error e
  | .ok (prompt_data, _) =>
      if prompt_data.isEmpty then .ok (.ok args)
      else
        .ok (parse_args_tokens params
          (argv ++ prompt_data.flatMap (fun nv => ["--" ++ nv.1, nv.2])))

/-! ## Dependency checking, privilege management, runner bridge -/

/-- The violation test of `_check_arg_dependencies` (line 158-166) for one
parameter: its own value truthy while `depends_on` names a parameter whose
value is falsy. -/
def dep_violation (args : Namespace) (p : Param) : Bool :=
  (nsGetD args p.name .vnone).truthy &&
  (match p.depends_on with
   | none => false
   | some d => !(nsGetD args d .vnone).truthy)

/-- `_check_arg_dependencies(parser, args)`: the first violating parameter
triggers `parser.error` (stderr message, exit `parser_error_exit`). -/
def check_arg_dependencies (params : List Param) (args : Namespace) :
    Except String Unit :=
  match params.find? (dep_violation args) with
  | some p =>
      .error ("argument --" ++ p.name ++ " requires --" ++
        (p.depends_on.getD "") ++ " to be present.")
  | none => .ok ()

/-- The privilege-relevant instance state set up by `__init__`. -/
structure PInstance where
  check_user_cfg : Option String
  become_user_cfg : Option String
  sudo_user : Option String := none
deriving DecidableEq, Repr

/-- Outcome of a privilege method: continue with a (possibly updated)
instance after printing the given stderr lines, or exit. -/
inductive PrivResult where
  | ok (s : PInstance) (stderr : List String)
  | exitWith (code : Nat) (stderr : List String)
deriving DecidableEq, Repr

/-- `Paternoster.check_user` (line 168-173).  `user_matches` is the external
`check_user` primitive of the missing `paternoster/root.py`, modelled from
the spec (section 4.7): it reports whether the current user is the required
one. -/
def method_check_user (s : PInstance) (user_matches : String → Bool) : PrivResult :=
  match s.check_user_cfg with
  | none => .ok s []
  | some u =>
      if u = "" then .ok s []
      else if user_matches u then .ok s []
      else .exitWith 1 ["This script can only be used by the user " ++ u]

/-- `Paternoster.become_user` (line 175-183).  `become` is the external
`become_user` primitive of the missing `paternoster/root.py`, modelled from
the spec (section 4.7): it switches identity and returns the prior/sudo
identity, or raises `ValueError` with a failure reason. -/
def method_become_user (s : PInstance) (become : String → Except String String) :
    PrivResult :=
  match s.become_user_cfg with
  | none => .ok s []
  | some u =>
      if u = "" then .ok s []
      else
        match become u with
        | .ok su => .ok { s with sudo_user := some su } []
        | .error e => .exitWith 1 [e]

/-- `os.path.basename`: the part of the path after the last slash. -/
def basename_aux : List Char → List Char → List Char
  | [], acc => acc.reverse
  | c :: rest, acc =>
      if c = '/' then basename_aux rest []
      else basename_aux rest (c :: acc)

/-- `os.path.basename(path)`. -/
def basename (path : String) : String := ⟨basename_aux path.data []⟩

/-- `_get_runner_variables` (line 203-213): `sudo_user` first when truthy,
then `script_name` from the invoking script path, then one `param_`-prefixed
pair per field of the parsed namespace, in order. -/
def get_runner_variables (sudo_user : Option String) (argv0 : String)
    (parsed : Namespace) : List (String × PyVal) :=
  (match sudo_user with
   | some u => if u != "" then [("sudo_user", PyVal.vstr u)] else []
   | none => []) ++
  ("script_name", PyVal.vstr (basename argv0)) ::
  parsed.map (fun kv => ("param_" ++ kv.1, kv.2))

/-- Truthiness of the configured success message. -/
def py_truthy_str : Option String → Bool
  | some s => s != ""
  | none => false

/-- `execute` (line 215-219) given the runner's boolean result: print the
success message when the runner succeeded and a truthy message is
configured, and return the boolean unchanged.  Result: (returned status,
printed lines). -/
def execute_fn (status : Bool) (success_msg : Option String) :
    Bool × List String :=
  (status, if status && py_truthy_str success_msg then [success_msg.getD ""] else [])

/-- The exit mapping of `auto` (line 190): `sys.exit(0 if status else 1)`. -/
def auto_exit_code (status : Bool) : Nat := if status then 0 else 1

/-- The tail of `auto`: run `execute` and map its boolean to the process
exit status.  Result: (exit code, printed lines). -/
def auto_fn (runner_status : Bool) (success_msg : Option String) :
    Nat × List String :=
  let r := execute_fn runner_status success_msg
  (auto_exit_code r.1, r.2)

/-! ## The `parse_args` method -/

/-- Outcome of the `parse_args` method (line 192-201): a parsed namespace, a
process exit (with the message printed on the way out, when one is), or the
model's marker for an exhausted input stream. -/
inductive Outcome where
  | ok (ns : Namespace)
  | exit (code : Nat) (msg : Option String)
  | noInput
deriving DecidableEq, Repr

/-- `parse_args(argv)`: build the parser (outside the `try`, so `ValueError`
and `Exception` from the type machinery escape as uncaught exceptions —
interpreter exit 1 — while `parser.error` exits 2); then parse, prompt for
missing values and check dependencies inside the `try`, where a raised
`ValueError` is printed and turned into exit 3, and `sys.exit(3)` from an
interrupted prompt passes through untouched. -/
def parse_args_method (params : List Param) (argv : List String)
    (evs : List InputEvent) : Outcome :=
  match build_argparser params with
  | .error (.usageError m) => .exit parser_error_exit (some m)
  | .error (.typeExc m) => .exit 1 (some m)
  | .error (.valueError m) => .exit 1 (some m)
  | .error (.keyError m) => .exit 1 (some m)
  | .ok _ =>
      match parse_args_tokens params argv with
      | .error m => .exit parser_error_exit (some m)
      | .ok args =>
          match prompt_for_missing params argv evs args with
          | .error (.valueError m) => .exit 3 (some m)
          | .error (.procExit c) => .exit c none
          | .error .exhausted => .noInput
          | .ok (.error m) => .exit parser_error_exit (some m)
          | .ok (.ok args2) =>
              match check_arg_dependencies params args2 with
              | .error m => .exit parser_error_exit (some m)
              | .ok _ => .ok args2

/-! ## The dict-level view of `_build_argparser` (for the frame property)

`_build_argparser` works on each parameter dictionary through
`argParams = param.copy()` followed by `pop`s on `argParams` (six in the
loop body, two more inside `_convert_type`); the declared dictionary itself
is only read.  The value-generic model below captures exactly those dict
operations. -/

/-- A Python dict with string keys, as an insertion-ordered association
list. -/
abbrev Dict (α : Type) : Type := List (String × α)

/-- `d.copy()`: a new top-level mapping with the same entries. -/
def dict_copy {α : Type} (d : Dict α) : Dict α := d

/-- `d.pop(k, None)`: remove the key (if present). -/
def dict_pop {α : Type} (d : Dict α) (k : String) : Dict α :=
  d.filter (fun kv => kv.1 != k)

/-- The loop body of `_build_argparser` (line 89-98) at the dict level:
returns the declared dictionary as it stands after the iteration, together
with the derived `argParams`.  All removals happen on the copy. -/
def process_param_dict {α : Type} (param : Dict α) : Dict α × Dict α :=
  let argParams := dict_copy param
  let argParams := dict_pop argParams "depends_on"
  let argParams := dict_pop argParams "positional"
  let argParams := dict_pop argParams "short"
  let argParams := dict_pop argParams "name"
  let argParams := dict_pop argParams "prompt"
  let argParams := dict_pop argParams "prompt_options"
  let argParams := dict_pop argParams "type"
  let argParams := dict_pop argParams "type_params"
  (param, argParams)

/-- The whole loop at the dict level: the declared list as it stands after
building, and the derived `argParams` of each parameter. -/
def build_params_dicts {α : Type} (params : List (Dict α)) :
    List (Dict α) × List (Dict α) :=
  (params.map (fun param => (process_param_dict param).1),
   params.map (fun param => (process_param_dict param).2))

/-! ## Concrete instances used in the claim-level examples -/

/-- A parameter declared with the raw `str` type (the C1 scenario). -/
def c1_cex_param : Param :=
  { name := "mypasswd", short := some "m", type? := some (.name "str") }

/-- A representative restricted-text validator instance. -/
def c2_restricted : ResolvedType :=
  { isClass := false, isStrSubclass := false, parse := fun s => some (.vstr s) }

/-- The required positional `target` of the end-to-end example. -/
def c2_target : Param :=
  { name := "target", positional := true, type? := some (.resolved c2_restricted) }

/-- The no-value flag `force` of the end-to-end example. -/
def c2_force : Param :=
  { name := "force", short := some "f", action := some "store_true" }

/-- The declared list of the end-to-end example. -/
def c2_params : List Param := [c2_target, c2_force]

/-- The parse of `mytool somehost` in the end-to-end example. -/
def c2_ns : Namespace :=
  [("target", .vstr "somehost"), ("force", .vbool false), ("verbose", .vint 0)]

/-- A promptable parameter with confirmation and `strip` configured. -/
def c3_strip_param : Param :=
  { name := "secret", prompt := some (.vbool true),
    prompt_options := { confirm := some (.vbool true), strip := true } }

/-- A promptable parameter with confirmation only. -/
def c3_confirm_param : Param :=
  { name := "passphrase", prompt := some (.vbool true),
    prompt_options := { confirm := some (.vbool true) } }

/-- The dependency example: `a` is an optional int argument. -/
def c4_a : Param :=
  { name := "a", short := some "a", type? := some (.name "int") }

/-- The dependency example: `b` is a restricted-text argument depending on
`a`. -/
def c4_b : Param :=
  { name := "b", short := some "b",
    type? := some (.resolved c2_restricted), depends_on := some "a" }

/-- The declared list of the dependency example. -/
def c4_params : List Param := [c4_a, c4_b]

/-- The parse of `--b x --a 0`: both arguments supplied, `a` bound to `0`. -/
def c4_args : Namespace :=
  [("a", .vint 0), ("b", .vstr "x"), ("verbose", .vint 0)]

/-- A required parameter declared with a prompt (the C5 conflict). -/
def c5_param : Param :=
  { name := "target", short := some "t", required := true,
    type? := some (.name "int"), prompt := some (.vbool true) }

/-- A promptable restricted-text parameter (the C7 interrupt scenario). -/
def c7_param : Param :=
  { name := "token", short := some "k",
    type? := some (.resolved c2_restricted), prompt := some (.vbool true) }

/-- A promptable int parameter (the C8 round-trip scenario). -/
def c8_param : Param :=
  { name := "a", short := some "a", type? := some (.name "int"),
    prompt := some (.vbool true) }

/-! ## Helper lemmas -/

lemma nsGet_nsSet_self (ns : Namespace) (k : String) (v : PyVal) :
    nsGet (nsSet ns k v) k = some v := by
  induction ns with
  | nil => simp [nsSet, nsGet]
  | cons kv rest ih =>
      by_cases h : kv.1 = k
      · simp [nsSet, nsGet, h]
      · simp only [nsSet, if_neg h]
        simpa [nsGet, List.find?, show (kv.1 == k) = false by simpa using h] using ih

lemma nsGet_nsSet_ne (ns : Namespace) (k k2 : String) (v : PyVal) (h : k2 ≠ k) :
    nsGet (nsSet ns k v) k2 = nsGet ns k2 := by
  induction ns with
  | nil => simp [nsSet, nsGet, List.find?, show (k == k2) = false by simpa using (Ne.symm h)]
  | cons kv rest ih =>
      by_cases hk : kv.1 = k
      · simp only [nsSet, if_pos hk]
        simp [nsGet, List.find?, show (k == k2) = false by simpa using (Ne.symm h), hk]
      · simp only [nsSet, if_neg hk]
        by_cases hk2 : kv.1 = k2
        · simp [nsGet, List.find?, hk2]
        · simpa [nsGet, List.find?, show (kv.1 == k2) = false by simpa using hk2] using ih

lemma nsSet_keys_of_mem (ns : Namespace) (k : String) (v : PyVal)
    (h : k ∈ ns.map Prod.fst) :
    (nsSet ns k v).map Prod.fst = ns.map Prod.fst := by
  induction ns with
  | nil => simp at h
  | cons kv rest ih =>
      by_cases hk : kv.1 = k
      · simp [nsSet, hk]
      · simp only [List.map_cons, List.mem_cons] at h
        have h2 : k ∈ rest.map Prod.fst := by
          rcases h with h1 | h1
          · exact absurd h1.symm hk
          · exact h1
        simp [nsSet, if_neg hk, ih h2]

/-- Characterization of a successful `parse_step`. -/
lemma parse_step_cases {params : List Param} {st : ParseSt} {tok : String}
    {st2 : ParseSt} (h : parse_step params st tok = .ok st2) :
    (∃ q, st.pending = some q ∧ is_flag_token tok = false ∧
      ∃ val, apply_type q tok = some val ∧
        st2 = { st with ns := nsSet st.ns q.name val,
                        seen := q.name :: st.seen, pending := none }) ∨
    (st.pending = none ∧ is_flag_token tok = true ∧
      ∃ q, flag_param params tok = some q ∧
        ((∃ b, st2 = { st with ns := nsSet st.ns q.name (.vbool b),
                               seen := q.name :: st.seen }) ∨
         (∃ c, st2 = { st with ns := nsSet st.ns q.name (.vint c),
                               seen := q.name :: st.seen }) ∨
         (q.action.getD "store" = "store" ∧ st2 = { st with pending := some q }))) ∨
    (st.pending = none ∧ is_flag_token tok = false ∧
      ∃ q qs, st.pos = q :: qs ∧ ∃ val, apply_type q tok = some val ∧
        st2 = { st with ns := nsSet st.ns q.name val, pos := qs,
                        seen := q.name :: st.seen }) := by
  unfold parse_step at h
  split at h
  · -- pending = some q
    rename_i q hp
    split at h
    · simp at h
    · rename_i hft
      split at h
      · rename_i val hat
        exact Or.inl ⟨q, hp, by simpa using hft, val, hat,
          by simpa using (Except.ok.inj h).symm⟩
      · simp at h
  · -- pending = none
    rename_i hp
    split at h
    · rename_i hft
      split at h
      · simp at h
      · rename_i q hfp
        refine Or.inr (Or.inl ⟨hp, hft, q, hfp, ?_⟩)
        split at h
        · exact Or.inl ⟨true, by simpa using (Except.ok.inj h).symm⟩
        · split at h
          · exact Or.inl ⟨false, by simpa using (Except.ok.inj h).symm⟩
          · split at h
            · have hex : ∃ c : Int,
                  (match nsGet st.ns q.name with
                   | some (PyVal.vint n) => PyVal.vint (n + 1)
                   | _ => PyVal.vint 1) = PyVal.vint c := by
                rcases nsGet st.ns q.name with _ | v
                · exact ⟨1, rfl⟩
                · rcases v with _ | b | n | s
                  · exact ⟨1, rfl⟩
                  · exact ⟨1, rfl⟩
                  · exact ⟨n + 1, rfl⟩
                  · exact ⟨1, rfl⟩
              obtain ⟨c, hc⟩ := hex
              rw [hc] at h
              exact Or.inr (Or.inl ⟨c, by simpa using (Except.ok.inj h).symm⟩)
            · split at h
              · rename_i h4
                exact Or.inr (Or.inr ⟨h4, by simpa using (Except.ok.inj h).symm⟩)
              · simp at h
    · rename_i hft
      split at h
      · simp at h
      · rename_i q qs hpos
        split at h
        · rename_i val hat
          exact Or.inr (Or.inr ⟨hp, by simpa using hft, q, qs, hpos, val, hat,
            by simpa using (Except.ok.inj h).symm⟩)
        · simp at h

lemma is_flag_token_dashdash (s : String) : is_flag_token ("--" ++ s) = true := by
  obtain ⟨l⟩ := s; rfl

lemma parse_step_pos_sub {params : List Param} {st : ParseSt} {tok : String}
    {st2 : ParseSt} (h : parse_step params st tok = .ok st2) :
    ∀ q ∈ st2.pos, q ∈ st.pos := by
  rcases parse_step_cases h with
    ⟨q, _, _, val, _, h2⟩ |
    ⟨_, _, q, _, ⟨b, h2⟩ | ⟨c, h2⟩ | ⟨_, h2⟩⟩ |
    ⟨_, _, q, qs, hpos, val, _, h2⟩ <;> subst h2 <;> intro r hr <;> simp at hr
  all_goals first
    | exact hr
    | (rw [hpos]; exact List.mem_cons_of_mem _ hr)

/-- The parse-loop invariant: the namespace keys are exactly the declared
names plus `verbose`, the waiting positionals are declared parameters, and a
pending option is a registered argument. -/
def st_inv (params : List Param) (st : ParseSt) : Prop :=
  st.ns.map Prod.fst = (all_params params).map Param.name ∧
  (∀ q ∈ st.pos, q ∈ params) ∧
  (∀ q, st.pending = some q → q ∈ all_params params)

lemma name_mem_keys {params : List Param} {st : ParseSt} {q : Param}
    (hinv : st.ns.map Prod.fst = (all_params params).map Param.name)
    (hq : q ∈ all_params params) : q.name ∈ st.ns.map Prod.fst := by
  rw [hinv]; exact List.mem_map_of_mem _ hq

lemma parse_step_inv {params : List Param} {st : ParseSt} {tok : String}
    {st2 : ParseSt} (h : parse_step params st tok = .ok st2)
    (hinv : st_inv params st) : st_inv params st2 := by
  obtain ⟨hkeys, hpos, hpend⟩ := hinv
  rcases parse_step_cases h with
    ⟨q, hq, _, val, _, h2⟩ |
    ⟨hqn, _, q, hq, ⟨b, h2⟩ | ⟨c, h2⟩ | ⟨_, h2⟩⟩ |
    ⟨_, _, q, qs, hposq, val, _, h2⟩ <;> subst h2
  · refine ⟨?_, by simpa using hpos, by simp⟩
    simpa [nsSet_keys_of_mem _ _ _ (name_mem_keys hkeys (hpend q hq))] using hkeys
  · have hqmem : q ∈ all_params params := List.mem_of_find?_eq_some hq
    refine ⟨?_, by simpa using hpos, by simpa using hpend⟩
    simpa [nsSet_keys_of_mem _ _ _ (name_mem_keys hkeys hqmem)] using hkeys
  · have hqmem : q ∈ all_params params := List.mem_of_find?_eq_some hq
    refine ⟨?_, by simpa using hpos, by simpa using hpend⟩
    simpa [nsSet_keys_of_mem _ _ _ (name_mem_keys hkeys hqmem)] using hkeys
  · refine ⟨hkeys, by simpa using hpos, ?_⟩
    intro r hr
    simp only [Option.some.injEq] at hr
    subst hr
    exact List.mem_of_find?_eq_some hq
  · have hqmem : q ∈ all_params params :=
      List.mem_append_left _ (hpos q (by rw [hposq]; exact List.mem_cons_self _ _))
    refine ⟨?_, ?_, hpend⟩
    · simpa [nsSet_keys_of_mem _ _ _ (name_mem_keys hkeys hqmem)] using hkeys
    · intro r hr
      exact hpos r (by rw [hposq]; exact List.mem_cons_of_mem _ (by simpa using hr))

lemma parse_loop_inv {params : List Param} :
    ∀ (toks : List String) (st stf : ParseSt),
      parse_loop params st toks = .ok stf → st_inv params st → st_inv params stf := by
  intro toks
  induction toks with
  | nil => intro st stf h hinv; unfold parse_loop at h; cases h; exact hinv
  | cons t rest ih =>
      intro st stf h hinv
      unfold parse_loop at h
      rcases hs : parse_step params st t with e | st2
      · rw [hs] at h; simp at h
      · rw [hs] at h
        exact ih st2 stf h (parse_step_inv hs hinv)

lemma parse_finish_ok {params : List Param} {st : ParseSt} {args : Namespace}
    (h : parse_finish params st = .ok args) : args = st.ns := by
  unfold parse_finish at h
  split at h
  · simp at h
  · split at h
    · exact (Except.ok.inj h).symm
    · simp at h

lemma initial_inv (params : List Param) :
    st_inv params
      { ns := initial_ns params, pos := params.filter (·.positional),
        seen := [], pending := none } := by
  refine ⟨?_, ?_, by simp⟩
  · simp [initial_ns, List.map_map, Function.comp]
  · intro q hq; exact List.mem_of_mem_filter hq

/-- A successful parse produces a namespace whose fields are exactly the
declared parameter names followed by the synthetic `verbose`, in declaration
order. -/
lemma parse_args_tokens_keys {params : List Param} {argv : List String}
    {args : Namespace} (h : parse_args_tokens params argv = .ok args) :
    args.map Prod.fst = params.map Param.name ++ ["verbose"] := by
  unfold parse_args_tokens at h
  rcases hl : parse_loop params
      { ns := initial_ns params, pos := params.filter (·.positional),
        seen := [], pending := none } argv with e | st
  · rw [hl] at h; simp at h
  · rw [hl] at h
    have hinv := parse_loop_inv argv _ st hl (initial_inv params)
    have := parse_finish_ok h
    subst this
    simpa [all_params] using hinv.1

lemma flag_matched_name_ne {params : List Param} {p q : Param} {tok : String}
    (hnd : ((all_params params).map Param.name).Nodup)
    (hp : p ∈ all_params params)
    (hq : flag_param params tok = some q)
    (hflag : is_flag_of p tok = false) : q.name ≠ p.name := by
  intro hn
  have hqmem : q ∈ all_params params := List.mem_of_find?_eq_some hq
  have hpred := List.find?_some hq
  have hqp : q = p := List.inj_on_of_nodup_map hnd hqmem hp hn
  rw [hqp] at hpred
  simp [hflag] at hpred

lemma parse_step_frame {params : List Param} {st st2 : ParseSt} {tok : String}
    {p : Param}
    (hnd : ((all_params params).map Param.name).Nodup)
    (hp : p ∈ all_params params)
    (h : parse_step params st tok = .ok st2)
    (hflag : is_flag_of p tok = false)
    (hpos : ∀ q ∈ st.pos, q.name ≠ p.name)
    (hpend : ∀ q, st.pending = some q → q.name ≠ p.name) :
    nsGet st2.ns p.name = nsGet st.ns p.name ∧
    (∀ q ∈ st2.pos, q.name ≠ p.name) ∧
    (∀ q, st2.pending = some q → q.name ≠ p.name) := by
  rcases parse_step_cases h with
    ⟨q, hq, _, val, _, h2⟩ |
    ⟨hqn, _, q, hq, ⟨b, h2⟩ | ⟨c, h2⟩ | ⟨_, h2⟩⟩ |
    ⟨_, _, q, qs, hposq, val, _, h2⟩ <;> subst h2
  · exact ⟨nsGet_nsSet_ne _ _ _ _ (Ne.symm (hpend q hq)), by simpa using hpos, by simp⟩
  · exact ⟨nsGet_nsSet_ne _ _ _ _ (Ne.symm (flag_matched_name_ne hnd hp hq hflag)),
      by simpa using hpos, by simpa using hpend⟩
  · exact ⟨nsGet_nsSet_ne _ _ _ _ (Ne.symm (flag_matched_name_ne hnd hp hq hflag)),
      by simpa using hpos, by simpa using hpend⟩
  · refine ⟨rfl, by simpa using hpos, ?_⟩
    intro r hr
    simp only [Option.some.injEq] at hr
    subst hr
    exact flag_matched_name_ne hnd hp hq hflag
  · refine ⟨?_, ?_, hpend⟩
    · exact nsGet_nsSet_ne _ _ _ _
        (Ne.symm (hpos q (by rw [hposq]; exact List.mem_cons_self _ _)))
    · intro r hr
      exact hpos r (by rw [hposq]; exact List.mem_cons_of_mem _ (by simpa using hr))

lemma parse_loop_frame {params : List Param} {p : Param}
    (hnd : ((all_params params).map Param.name).Nodup)
    (hp : p ∈ all_params params) :
    ∀ (toks : List String) (st stf : ParseSt),
      (∀ t ∈ toks, is_flag_of p t = false) →
      (∀ q ∈ st.pos, q.name ≠ p.name) →
      (∀ q, st.pending = some q → q.name ≠ p.name) →
      parse_loop params st toks = .ok stf →
      nsGet stf.ns p.name = nsGet st.ns p.name := by
  intro toks
  induction toks with
  | nil => intro st stf _ _ _ h; unfold parse_loop at h; cases h; rfl
  | cons t rest ih =>
      intro st stf hflag hpos hpend h
      unfold parse_loop at h
      rcases hs : parse_step params st t with e | st2
      · rw [hs] at h; simp at h
      · rw [hs] at h
        obtain ⟨hga, hposa, hpenda⟩ :=
          parse_step_frame hnd hp hs (hflag t (List.mem_cons_self _ _)) hpos hpend
        rw [ih st2 stf (fun r hr => hflag r (List.mem_cons_of_mem _ hr)) hposa hpenda h]
        exact hga

lemma parse_step_store_flag {params : List Param} {st : ParseSt} {p : Param}
    (hpend : st.pending = none)
    (hfind : flag_param params ("--" ++ p.name) = some p)
    (ha : p.action.getD "store" = "store") :
    parse_step params st ("--" ++ p.name) = .ok { st with pending := some p } := by
  unfold parse_step
  rw [hpend]
  simp only [is_flag_token_dashdash, if_true, hfind, ha]
  simp

lemma parse_step_flag_pending {params : List Param} {st : ParseSt} {q : Param}
    {tok : String} (hpend : st.pending = some q) (hft : is_flag_token tok = true) :
    parse_step params st tok = .error ("argument --" ++ q.name ++ ": expected one argument") := by
  unfold parse_step
  rw [hpend]
  simp [hft]

lemma parse_step_value {params : List Param} {st : ParseSt} {p : Param}
    {v : String} {val : PyVal} (hpend : st.pending = some p)
    (hv2 : is_flag_token v = false) (hval : apply_type p v = some val) :
    parse_step params st v =
      .ok { st with ns := nsSet st.ns p.name val,
                    seen := p.name :: st.seen, pending := none } := by
  unfold parse_step
  rw [hpend]
  simp [hv2, hval]

/-- After a successful parse of any token list containing `--name v` with no
later occurrence of the parameter's flags, the namespace holds the
type-validated image of `v`. -/
lemma parse_sets_value {params : List Param} {p : Param} {v : String}
    {val : PyVal} {post : List String}
    (hnd : ((all_params params).map Param.name).Nodup)
    (hfind : flag_param params ("--" ++ p.name) = some p)
    (ha : p.action.getD "store" = "store")
    (hval : apply_type p v = some val)
    (hv2 : is_flag_token v = false)
    (hpost : ∀ t ∈ post, is_flag_of p t = false) :
    ∀ (pre : List String) (st stf : ParseSt),
      (∀ q ∈ st.pos, q.name ≠ p.name) →
      parse_loop params st (pre ++ ("--" ++ p.name) :: v :: post) = .ok stf →
      nsGet stf.ns p.name = some val := by
  have hp : p ∈ all_params params := List.mem_of_find?_eq_some hfind
  intro pre
  induction pre with
  | nil =>
      intro st stf hpos h
      simp only [List.nil_append] at h
      rcases hpend : st.pending with _ | q
      · rw [show parse_loop params st (("--" ++ p.name) :: v :: post) =
              parse_loop params { st with pending := some p } (v :: post) by
            conv_lhs => unfold parse_loop
            rw [parse_step_store_flag hpend hfind ha]] at h
        rw [show parse_loop params { st with pending := some p } (v :: post) =
              parse_loop params
                { st with ns := nsSet st.ns p.name val,
                          seen := p.name :: st.seen, pending := none } post by
            conv_lhs => unfold parse_loop
            rw [@parse_step_value params { st with pending := some p } p v val rfl hv2 hval]] at h
        rw [parse_loop_frame hnd hp post _ stf hpost (by simpa using hpos) (by simp) h]
        exact nsGet_nsSet_self _ _ _
      · rw [show parse_loop params st (("--" ++ p.name) :: v :: post) =
              .error ("argument --" ++ q.name ++ ": expected one argument") by
            conv_lhs => unfold parse_loop
            rw [parse_step_flag_pending hpend (is_flag_token_dashdash p.name)]] at h
        simp at h
  | cons t pre2 ih =>
      intro st stf hpos h
      simp only [List.cons_append] at h
      unfold parse_loop at h
      rcases hs : parse_step params st t with e | st2
      · rw [hs] at h; simp at h
      · rw [hs] at h
        exact ih st2 stf
          (fun q hq => hpos q (parse_step_pos_sub hs q hq)) h

/-- `parse_sets_value` lifted to `parse_args_tokens`. -/
lemma parse_args_sets_value {params : List Param} {p : Param} {v : String}
    {val : PyVal} {pre post : List String} {args : Namespace}
    (hnd : ((all_params params).map Param.name).Nodup)
    (hfind : flag_param params ("--" ++ p.name) = some p)
    (ha : p.action.getD "store" = "store")
    (hposi : p.positional = false)
    (hval : apply_type p v = some val)
    (hv2 : is_flag_token v = false)
    (hpost : ∀ t ∈ post, is_flag_of p t = false)
    (h : parse_args_tokens params (pre ++ ("--" ++ p.name) :: v :: post) = .ok args) :
    nsGet args p.name = some val := by
  have hp : p ∈ all_params params := List.mem_of_find?_eq_some hfind
  unfold parse_args_tokens at h
  rcases hl : parse_loop params
      { ns := initial_ns params, pos := params.filter (·.positional),
        seen := [], pending := none }
      (pre ++ ("--" ++ p.name) :: v :: post) with e | st
  · rw [hl] at h; simp at h
  · rw [hl] at h
    have hargs := parse_finish_ok h
    subst hargs
    refine parse_sets_value hnd hfind ha hval hv2 hpost pre _ st ?_ hl
    intro q hq hqn
    have hqmem : q ∈ params := List.mem_of_mem_filter hq
    have hqpos : q.positional = true := by
      simpa using (List.of_mem_filter hq)
    have : q = p := List.inj_on_of_nodup_map hnd
      (List.mem_append_left _ hqmem) hp hqn
    rw [this] at hqpos
    rw [hposi] at hqpos
    exact Bool.false_ne_true hqpos

lemma beq_param_ne_sudo (k : String) : (("param_" ++ k) == "sudo_user") = false := by
  obtain ⟨l⟩ := k; rfl

lemma runner_vars_no_sudo (a : String) (ns : Namespace) :
    (get_runner_variables none a ns).all (fun kv => kv.1 != "sudo_user") = true := by
  apply List.all_eq_true.mpr
  rintro ⟨k, v⟩ hkv
  simp only [get_runner_variables, List.nil_append, List.mem_cons, List.mem_map] at hkv
  rcases hkv with h | ⟨kv2, _, h⟩
  · obtain ⟨rfl, -⟩ := Prod.mk.injEq .. ▸ And.intro (congrArg Prod.fst h) (congrArg Prod.snd h)
    rfl
  · have hk : k = "param_" ++ kv2.1 := (congrArg Prod.fst h).symm
    subst hk
    simp [bne, beq_param_ne_sudo]

lemma get_input_interrupt (p : Param) (rest : List InputEvent) :
    get_input p (.interrupt :: rest) = .error (.procExit 3) := by
  simp [get_input, read_loop, prompt_read]

lemma prompt_missing_empty (params : List Param) (argv : List String)
    (evs : List InputEvent) (args : Namespace)
    (h : missing_promptable params args = []) :
    prompt_for_missing params argv evs args = .ok (.ok args) := by
  unfold prompt_for_missing
  rw [h]
  simp [collect_inputs]

lemma check_deps_ok_iff (params : List Param) (args : Namespace) :
    check_arg_dependencies params args = .ok () ↔
      ∀ p ∈ params, dep_violation args p = false := by
  unfold check_arg_dependencies
  rcases hf : params.find? (dep_violation args) with _ | p
  · exact iff_of_true rfl (fun p hp => by simpa using List.find?_eq_none.mp hf p hp)
  · refine iff_of_false (by simp) (fun hall => ?_)
    have h2 := hall p (List.mem_of_find?_eq_some hf)
    rw [List.find?_some hf] at h2
    exact absurd h2 (by decide)

lemma check_deps_error {params : List Param} {args : Namespace} {m : String}
    (h : check_arg_dependencies params args = .error m) :
    ∃ p ∈ params, ∃ d, p.depends_on = some d ∧
      (nsGetD args p.name .vnone).truthy = true ∧
      (nsGetD args d .vnone).truthy = false ∧
      m = "argument --" ++ p.name ++ " requires --" ++ d ++ " to be present." := by
  unfold check_arg_dependencies at h
  rcases hf : params.find? (dep_violation args) with _ | p
  · rw [hf] at h; simp at h
  · rw [hf] at h
    have hm := (Except.error.inj h).symm
    have hpred := List.find?_some hf
    have hmem := List.mem_of_find?_eq_some hf
    unfold dep_violation at hpred
    rcases hd : p.depends_on with _ | d
    · rw [hd] at hpred; simp at hpred
    · rw [hd] at hpred
      simp only [Bool.and_eq_true, Bool.not_eq_true'] at hpred
      refine ⟨p, hmem, d, hd, hpred.1, hpred.2, ?_⟩
      rw [hm, hd]; rfl

lemma build_step_required_prompt {p : Param}
    (hreq : (p.required || p.positional) = true)
    (hprompt : prompt_truthy p = true) : ∀ x, build_step p ≠ .ok x := by
  intro x h
  unfold build_step at h
  rcases hc : convert_type p.type? p.type_params with e | rt <;> rw [hc] at h <;>
      simp only [Except.mapError, Bind.bind, Except.bind] at h
  · exact Except.noConfusion h
  · rcases hk : check_type rt p.action with e | u <;> rw [hk] at h <;>
      simp only [Except.mapError, Bind.bind, Except.bind] at h
    · exact Except.noConfusion h
    · simp only [hreq, hprompt, if_true, Bind.bind, Except.bind, pure,
        Except.pure] at h
      split at h
      · exact Except.noConfusion h
      · split at h
        · exact Except.noConfusion h
        · exact Except.noConfusion h

lemma build_params_not_ok {params : List Param} {p : Param} (hmem : p ∈ params)
    (hstep : ∀ x, build_step p ≠ .ok x) :
    ∀ y, build_params params ≠ .ok y := by
  induction params with
  | nil => simp at hmem
  | cons q rest ih =>
      intro y h
      unfold build_params at h
      rcases hs : build_step q with e | x <;> rw [hs] at h
      · simp [Bind.bind, Except.bind] at h
      · simp only [Bind.bind, Except.bind] at h
        rcases hr : build_params rest with e | z <;> rw [hr] at h
        · simp at h
        · rcases List.mem_cons.mp hmem with rfl | hmem2
          · exact hstep x hs
          · exact ih hmem2 z hr

lemma build_argparser_not_ok {params : List Param} {p : Param} (hmem : p ∈ params)
    (hstep : ∀ x, build_step p ≠ .ok x) :
    ∀ sur, build_argparser params ≠ .ok sur := by
  intro sur h
  unfold build_argparser at h
  rcases hb : build_params params with e | y <;> rw [hb] at h
  · simp [Bind.bind, Except.bind] at h
  · exact build_params_not_ok hmem hstep y hb

/-! ## Claim theorems -/

/-- C1 (amended): the surface-build type check fails (raises a specification
error) if and only if the action is value-consuming (not in the no-value
whitelist) and either no type resolved or the resolved type is the
raw/unrestricted text type; the error carries one of two fixed policy
messages (which do not name the offending parameter), while a
no-value-action parameter is accepted with no type or even a raw text
type. -/
theorem C1_type_check_policy :
    ∀ (type? : Option ResolvedType) (action? : Option String),
      ((∃ m, check_type type? action? = .error m) ↔
        (action?.getD "store" ∉ action_whitelist ∧
          (type? = none ∨
            ∃ t, type? = some t ∧ t.isClass = true ∧ t.isStrSubclass = true))) ∧
      (∀ m, check_type type? action? = .error m →
        m = check_msg_no_type ∨ m = check_msg_str) := by
  intro type? action?
  by_cases hw : action?.getD "store" ∈ action_whitelist
  · have hval : check_type type? action? = .ok () := by
      simp [check_type, hw]
    constructor
    · refine iff_of_false ?_ ?_
      · rintro ⟨m, hm⟩
        rw [hval] at hm
        exact Except.noConfusion hm
      · rintro ⟨hc, -⟩
        exact hc hw
    · intro m hm
      rw [hval] at hm
      exact Except.noConfusion hm
  · rcases type? with _ | t
    · have hval : check_type none action? = .error check_msg_no_type := by
        simp [check_type, hw]
      constructor
      · exact iff_of_true ⟨check_msg_no_type, hval⟩ ⟨hw, Or.inl rfl⟩
      · intro m hm
        rw [hval] at hm
        exact Or.inl (Except.error.inj hm).symm
    · by_cases hcl : (t.isClass && t.isStrSubclass) = true
      · obtain ⟨h1, h2⟩ : t.isClass = true ∧ t.isStrSubclass = true := by
          simpa [Bool.and_eq_true] using hcl
        have hval : check_type (some t) action? = .error check_msg_str := by
          simp [check_type, hw, h1, h2]
        constructor
        · exact iff_of_true ⟨check_msg_str, hval⟩ ⟨hw, Or.inr ⟨t, rfl, h1, h2⟩⟩
        · intro m hm
          rw [hval] at hm
          exact Or.inr (Except.error.inj hm).symm
      · have hna : ¬(t.isClass = true ∧ t.isStrSubclass = true) := by
          simpa [Bool.and_eq_true] using hcl
        have hval : check_type (some t) action? = .ok () := by
          simp [check_type, hna]
        constructor
        · refine iff_of_false ?_ ?_
          · rintro ⟨m, hm⟩
            rw [hval] at hm
            exact Except.noConfusion hm
          · rintro ⟨-, h | ⟨t2, ht2, h1, h2⟩⟩
            · exact Option.noConfusion h
            · rw [Option.some.injEq] at ht2
              exact hna ⟨ht2 ▸ h1, ht2 ▸ h2⟩
        · intro m hm
          rw [hval] at hm
          exact Except.noConfusion hm

/-- C1 witness: the raw `str` type with the default value-consuming action is
rejected, while a whitelisted no-value action is accepted with no type, or
even with the raw text type. -/
theorem C1_type_check_policy_witness :
    (∃ m, check_type (some strType) none = .error m) ∧
    check_type none (some "store_true") = .ok () ∧
    check_type (some strType) (some "count") = .ok () :=
  ⟨(C1_type_check_policy (some strType) none).1.mpr
      ⟨by decide, Or.inr ⟨strType, rfl, rfl, rfl⟩⟩,
    rfl, rfl⟩

/-- C1 counterexample: for the parameter named `mypasswd`, declared with the
raw `str` type and the default action, building raises the fixed policy
message, and that message does not contain the parameter name — refuting
the claim that the policy-violation error names the offending parameter. -/
theorem C1_counterexample :
    build_step c1_cex_param = .error (.valueError check_msg_str) ∧
    str_contains check_msg_str "mypasswd" = false := by
  exact ⟨rfl, by decide⟩

/-- C2: the runner-variable sequence starts with `sudo_user` — present
exactly when a (truthy) sudo identity was recorded — and `script_name`
bound to the base name of the invoking script, followed by one
`param_`-prefixed pair per field of the parsed namespace in declaration
order, the synthetic verbose count included; concretely, the end-to-end
example `mytool somehost` with a positional `target` and a `store_true`
flag `force` yields the claimed sequence. -/
theorem C2_runner_variable_sequence :
    (∀ a ns, (get_runner_variables none a ns).all
        (fun kv => kv.1 != "sudo_user") = true) ∧
    (∀ u a ns, (u == "") = false →
      get_runner_variables (some u) a ns =
        ("sudo_user", .vstr u) :: ("script_name", .vstr (basename a)) ::
          ns.map (fun kv => ("param_" ++ kv.1, kv.2))) ∧
    (∀ a ns, get_runner_variables none a ns =
        ("script_name", .vstr (basename a)) ::
          ns.map (fun kv => ("param_" ++ kv.1, kv.2))) ∧
    (∀ params argv args, parse_args_tokens params argv = .ok args →
      args.map Prod.fst = params.map Param.name ++ ["verbose"]) ∧
    (parse_args_tokens c2_params ["somehost"] = .ok c2_ns ∧
      get_runner_variables none "mytool" c2_ns =
        [("script_name", .vstr "mytool"), ("param_target", .vstr "somehost"),
         ("param_force", .vbool false), ("param_verbose", .vint 0)]) := by
  refine ⟨runner_vars_no_sudo, ?_, ?_, ?_, rfl, rfl⟩
  · intro u a ns h
    have hu : (u != "") = true := by simp [bne, h]
    simp [get_runner_variables, hu]
  · intro a ns
    simp [get_runner_variables]
  · intro params argv args h
    exact parse_args_tokens_keys h

/-- C2 witness: a recorded sudo identity appears first; the example parse
yields the fields `target`, `force`, `verbose` in declaration order. -/
theorem C2_runner_variable_sequence_witness :
    get_runner_variables (some "admin") "/usr/local/bin/mytool" [("x", .vint 1)] =
      [("sudo_user", .vstr "admin"), ("script_name", .vstr "mytool"),
       ("param_x", .vint 1)] ∧
    c2_ns.map Prod.fst = ["target", "force", "verbose"] := by
  constructor
  · rw [C2_runner_variable_sequence.2.1 "admin" "/usr/local/bin/mytool"
      [("x", .vint 1)] rfl]
    rfl
  · have h := C2_runner_variable_sequence.2.2.2.1 c2_params ["somehost"] c2_ns
      C2_runner_variable_sequence.2.2.2.2.1
    exact h.trans rfl

/-- C3 (amended): with confirmation requested, `get_input` prompts a second
time and compares the collected value — the first accepted input after
optional stripping — with the raw confirmation input for exact equality:
equal values return the collected value, a mismatch raises a `ValueError`
carrying the configured `confirm_error` (when it is a truthy string) or the
default mismatch message. -/
theorem C3_confirmation (p : Param) (a c : String) (rest : List InputEvent)
    (hconf : ask_confirmation p.prompt_options = true)
    (hacc : (((if p.prompt_options.strip then py_strip a else a) != "") ||
        p.prompt_options.accept_empty) = true) :
    get_input p (.text a :: .text c :: rest) =
      (if (if p.prompt_options.strip then py_strip a else a) = c
       then .ok ((if p.prompt_options.strip then py_strip a else a), rest)
       else .error (.valueError (effective_confirm_error p.prompt_options))) := by
  have hv : read_loop p.prompt_options.strip p.prompt_options.accept_empty
      p.prompt_options.no_echo (.text a :: .text c :: rest) =
      .ok ((if p.prompt_options.strip then py_strip a else a),
           .text c :: rest) := by
    unfold read_loop prompt_read
    simp only [hacc, if_true]
  by_cases he : (if p.prompt_options.strip then py_strip a else a) = c
  · simp [get_input, hv, hconf, prompt_read, he]
  · simp [get_input, hv, hconf, prompt_read, he, bne]

/-- C3 witness: without stripping, first input `abc` and confirmation `abc`
return `abc`; first `abc` and confirmation `xyz` raise the default mismatch
`ValueError`. -/
theorem C3_confirmation_witness :
    get_input c3_confirm_param [.text "abc", .text "abc"] = .ok ("abc", []) ∧
    get_input c3_confirm_param [.text "abc", .text "xyz"] =
      .error (.valueError default_confirm_error) := by
  have h1 := C3_confirmation c3_confirm_param "abc" "abc" [] rfl rfl
  have h2 := C3_confirmation c3_confirm_param "abc" "xyz" [] rfl rfl
  exact ⟨h1.trans (by rfl), h2.trans (by rfl)⟩

/-- C3 counterexample: with `strip` configured and confirmation requested,
both raw inputs are exactly the string " abc", yet collection raises the
default mismatch failure (the stripped first value "abc" is compared with
the raw confirmation " abc") — refuting the claim that the two raw values
are compared for exact equality. -/
theorem C3_counterexample :
    get_input c3_strip_param [.text " abc", .text " abc"] =
      .error (.valueError default_confirm_error) := by
  rfl

/-- C4 (amended): the post-prompt dependency check reports a usage error
through the parser's error path (exit status 2) naming both the dependent
flag and its dependency exactly when some parameter's own parsed value is
truthy while the named dependency's value is falsy (absent, None, False, 0
or an empty string); parameters without `depends_on` never trigger it. -/
theorem C4_dependency_check (params : List Param) (args : Namespace) :
    (check_arg_dependencies params args = .ok () ↔
      ∀ p ∈ params, ∀ d, p.depends_on = some d →
        (nsGetD args p.name .vnone).truthy = true →
        (nsGetD args d .vnone).truthy = true) ∧
    (∀ m, check_arg_dependencies params args = .error m →
      ∃ p ∈ params, ∃ d, p.depends_on = some d ∧
        (nsGetD args p.name .vnone).truthy = true ∧
        (nsGetD args d .vnone).truthy = false ∧
        m = "argument --" ++ p.name ++ " requires --" ++ d ++ " to be present.") ∧
    parser_error_exit ≠ 0 := by
  refine ⟨?_, fun m hm => check_deps_error hm, by decide⟩
  rw [check_deps_ok_iff]
  constructor
  · intro hall p hp d hd hown
    have h2 := hall p hp
    unfold dep_violation at h2
    rw [hd, hown] at h2
    simpa using h2
  · intro hall p hp
    unfold dep_violation
    rcases hd : p.depends_on with _ | d
    · simp
    · rcases hown : (nsGetD args p.name .vnone).truthy with _ | _
      · simp [hown]
      · simp [hown, hall p hp d hd hown]

/-- C4 witness: with the dependency satisfied by a truthy value (`--a 1`),
the check passes. -/
theorem C4_dependency_check_witness :
    check_arg_dependencies c4_params
      [("a", .vint 1), ("b", .vstr "x"), ("verbose", .vint 0)] = .ok () := by
  refine (C4_dependency_check c4_params
      [("a", .vint 1), ("b", .vstr "x"), ("verbose", .vint 0)]).1.mpr ?_
  intro p hp d hd hown
  rcases List.mem_cons.mp hp with rfl | hp2
  · exact absurd hd (by simp [c4_a])
  · rcases List.mem_cons.mp hp2 with rfl | hp3
    · have hd2 : d = "a" := by simpa [c4_b] using hd.symm
      rw [hd2]
      rfl
    · simp at hp3

/-- C4 counterexample: the invocation `--b x --a 0` supplies both arguments,
yet the dependency check raises the usage error naming both, because the
supplied dependency value `0` is falsy — refuting "when both are supplied,
no error is raised". -/
theorem C4_counterexample :
    parse_args_tokens c4_params ["--b", "x", "--a", "0"] = .ok c4_args ∧
    check_arg_dependencies c4_params c4_args =
      .error "argument --b requires --a to be present." :=
  ⟨rfl, rfl⟩

/-- C5: a required parameter (explicitly required or positional) that also
carries a truthy prompt makes surface construction fail deterministically:
the build never yields a parser; when the parameter is reached with its type
machinery succeeding and its flags computable, the failure is exactly
`parser.error` with the conflict message naming the parameter; a
usage-failing build exits `parse_args` with the non-zero status 2 before any
argument is parsed. -/
theorem C5_required_prompt_conflict (params : List Param) (p : Param)
    (hmem : p ∈ params) (hreq : (p.required || p.positional) = true)
    (hprompt : prompt_truthy p = true) :
    (∀ sur, build_argparser params ≠ .ok sur) ∧
    (∀ rt, convert_type p.type? p.type_params = .ok rt →
      check_type rt p.action = .ok () →
      (p.positional = true ∨ ∃ s, p.short = some s) →
      build_step p = .error (.usageError (required_prompt_msg p.name))) ∧
    (∀ argv evs m, build_argparser params = .error (.usageError m) →
      parse_args_method params argv evs = .exit parser_error_exit (some m)) ∧
    parser_error_exit ≠ 0 := by
  refine ⟨build_argparser_not_ok hmem (build_step_required_prompt hreq hprompt),
    ?_, ?_, by decide⟩
  · intro rt hc hk hflags
    unfold build_step
    rw [hc]
    simp only [Except.mapError, Bind.bind, Except.bind]
    rw [hk]
    simp only [Except.mapError, Bind.bind, Except.bind]
    rcases hflags with hpos | ⟨s, hs⟩
    · simp [hpos, hreq, hprompt, pure, Except.pure]
    · rcases hpos : p.positional with _ | _
      · have hreq2 : p.required = true := by simpa [hpos] using hreq
        simp [hpos, hs, hreq2, hprompt, pure, Except.pure]
      · simp [hpos, hreq, hprompt, pure, Except.pure]
  · intro argv evs m hb
    unfold parse_args_method
    rw [hb]

/-- C5 witness: the concrete required-with-prompt parameter is rejected by
`parser.error` with the conflict message, and the surface is never built. -/
theorem C5_required_prompt_conflict_witness :
    build_step c5_param = .error (.usageError (required_prompt_msg "target")) ∧
    build_argparser [c5_param] ≠
      .ok { required_args := [], optional_args := [] } := by
  have h := C5_required_prompt_conflict [c5_param] c5_param
    (List.mem_singleton.mpr rfl) rfl rfl
  exact ⟨h.2.1 (some intType) rfl rfl (Or.inr ⟨"t", rfl⟩), h.1 _⟩

/-- C6: `execute` returns the runner's boolean unchanged and `auto` maps it
to the process exit status (true to 0, false to 1); the success message is
printed exactly when the runner returned true and a truthy success message
is configured; in particular a false runner result gives exit status 1 with
nothing printed even when a message is configured. -/
theorem C6_execute_exit_mapping :
    ∀ (status : Bool) (msg : Option String),
      (execute_fn status msg).1 = status ∧
      auto_exit_code true = 0 ∧ auto_exit_code false = 1 ∧
      ((execute_fn status msg).2 ≠ [] ↔ status = true ∧ py_truthy_str msg = true) ∧
      auto_fn false msg = (1, []) := by
  intro status msg
  refine ⟨rfl, rfl, rfl, ?_, by simp [auto_fn, execute_fn, auto_exit_code]⟩
  rcases status with _ | _
  · simp [execute_fn]
  · rcases ht : py_truthy_str msg with _ | _
    · simp [execute_fn, ht]
    · simp [execute_fn, ht]

/-- C6 witness: a false runner result with a configured success message
returns false, exits 1, prints nothing; a true result with the same message
prints it. -/
theorem C6_execute_exit_mapping_witness :
    (execute_fn false (some "all good")).1 = false ∧
    auto_fn false (some "all good") = (1, []) ∧
    (execute_fn true (some "all good")).2 ≠ [] := by
  have h1 := C6_execute_exit_mapping false (some "all good")
  have h2 := C6_execute_exit_mapping true (some "all good")
  exact ⟨h1.1, h1.2.2.2.2, h2.2.2.2.1.mpr ⟨rfl, rfl⟩⟩

/-- C7: a keyboard-originated interrupt during a prompt read — echoed or
not — terminates with exit status 3: the read itself exits 3, `get_input`
propagates it unchanged, and inside `parse_args` an interrupt at the first
missing-parameter prompt terminates the whole pipeline with exit 3 and no
error-path message. -/
theorem C7_interrupt_exit :
    (∀ no_echo, prompt_read no_echo .interrupt = .error (.procExit 3)) ∧
    (∀ p rest, get_input p (.interrupt :: rest) = .error (.procExit 3)) ∧
    (∀ params argv evs args sur p ps,
      build_argparser params = .ok sur →
      parse_args_tokens params argv = .ok args →
      missing_promptable params args = p :: ps →
      parse_args_method params argv (.interrupt :: evs) = .exit 3 none) := by
  refine ⟨fun _ => rfl, get_input_interrupt, ?_⟩
  intro params argv evs args sur p ps hb hp hm
  have hpm : prompt_for_missing params argv (.interrupt :: evs) args =
      .error (.procExit 3) := by
    unfold prompt_for_missing
    rw [hm]
    unfold collect_inputs
    rw [get_input_interrupt]
  simp [parse_args_method, hb, hp, hpm]

/-- C7 witness: with one promptable parameter missing, an interrupt at the
prompt makes `parse_args` exit 3 with no message. -/
theorem C7_interrupt_exit_witness :
    parse_args_method [c7_param] [] [.interrupt] = .exit 3 none :=
  C7_interrupt_exit.2.2 [c7_param] [] [] [("token", .vnone), ("verbose", .vint 0)]
    { required_args := [],
      optional_args := [["-h", "--help"], ["-k", "--token"], ["-v", "--verbose"]] }
    c7_param [] rfl rfl rfl

/-- C8: for a promptable value-consuming parameter with resolved type `T`,
any successful parse of a token list containing `--name v` (with no later
occurrence of the parameter's flags) binds the parameter to `T v` — so a
CLI-supplied `v` and a prompter-collected `v` (the prompter re-invokes the
same parser with the synthetic pair appended last) validate to the same
value; and when no promptable parameter is missing, `_prompt_for_missing`
returns the original parsed result unchanged. -/
theorem C8_roundtrip (params : List Param) (p : Param) (T : ResolvedType)
    (v : String) (val : PyVal)
    (hnd : ((all_params params).map Param.name).Nodup)
    (hfind : flag_param params ("--" ++ p.name) = some p)
    (ha : p.action.getD "store" = "store")
    (hposi : p.positional = false)
    (hT : resolved_type p = some T)
    (hval : T.parse v = some val)
    (hv2 : is_flag_token v = false) :
    (∀ pre post args, (∀ t ∈ post, is_flag_of p t = false) →
      parse_args_tokens params (pre ++ ("--" ++ p.name) :: v :: post) = .ok args →
      nsGet args p.name = some val) ∧
    (∀ argv evs args, missing_promptable params args = [] →
      prompt_for_missing params argv evs args = .ok (.ok args)) := by
  constructor
  · intro pre post args hpost h
    have hat : apply_type p v = some val := by
      unfold apply_type
      rw [hT]
      exact hval
    exact parse_args_sets_value hnd hfind ha hposi hat hv2 hpost h
  · intro argv evs args hm
    exact prompt_missing_empty params argv evs args hm

/-- C8 witness: for the promptable int parameter `a`, the CLI-supplied raw
text `42` validates to the int 42, and with nothing missing the prompting
pass returns the parse unchanged. -/
theorem C8_roundtrip_witness :
    nsGet [("a", .vint 42), ("verbose", .vint 0)] "a" = some (.vint 42) ∧
    prompt_for_missing [c8_param] ["--a", "42"] []
      [("a", .vint 42), ("verbose", .vint 0)] =
      .ok (.ok [("a", .vint 42), ("verbose", .vint 0)]) := by
  have h := C8_roundtrip [c8_param] c8_param intType "42" (.vint 42)
    (by decide) rfl rfl rfl rfl rfl rfl
  exact ⟨h.1 [] [] [("a", .vint 42), ("verbose", .vint 0)] (by simp) rfl,
    h.2 ["--a", "42"] [] [("a", .vint 42), ("verbose", .vint 0)] rfl⟩

/-- C9: `_build_argparser` derives the argparse keyword dictionary of every
parameter from a shallow copy, popping the framework keys (`depends_on`,
`positional`, `short`, `name`, `prompt`, `prompt_options`, and — inside
`_convert_type` — `type`, `type_params`) on the copy only: after building,
the declared parameter dictionaries are unchanged, and rebuilding from that
same list gives identical results. -/
theorem C9_build_no_mutation (α : Type) (params : List (Dict α)) :
    (build_params_dicts params).1 = params ∧
    build_params_dicts ((build_params_dicts params).1) =
      build_params_dicts params := by
  have h1 : (build_params_dicts params).1 = params := by
    simp [build_params_dicts, process_param_dict]
  exact ⟨h1, by rw [h1]⟩

/-- C10: with neither identity policy configured, `check_user` and
`become_user` return without printing or exiting, the recorded sudo identity
stays `None`, and the runner-variable sequence contains no `sudo_user`
entry. -/
theorem C10_no_identity_policy :
    ∀ (user_matches : String → Bool) (become : String → Except String String)
      (argv0 : String) (ns : Namespace),
      method_check_user ⟨none, none, none⟩ user_matches =
        .ok ⟨none, none, none⟩ [] ∧
      method_become_user ⟨none, none, none⟩ become =
        .ok ⟨none, none, none⟩ [] ∧
      (⟨none, none, none⟩ : PInstance).sudo_user = none ∧
      (get_runner_variables (⟨none, none, none⟩ : PInstance).sudo_user argv0 ns).all
        (fun kv => kv.1 != "sudo_user") = true := by
  intro f g a ns
  exact ⟨rfl, rfl, rfl, runner_vars_no_sudo a ns⟩

end Paternoster
